import Mathlib

/-
Verification of the containerlab deployment engine against its source:
the phase-aware dependency manager, automatic dependency derivation,
node scheduling, veth link deployment, the external-dependency waiter,
runtime health queries, endpoint uniqueness and lab construction options.

Go maps are modelled as a list of keys (the map domain) together with a
total function for the values; a sync.WaitGroup is modelled by its
outstanding counter; fallible Go functions return Except.
-/

/-- The dependency phases a node can be waited on for.
Source: types.WaitForPhase with values created, configured, healthy. -/
inductive WaitForPhase where
  | created
  | configured
  | healthy
deriving DecidableEq

/-- Modelled from the spec: the ordered list types.WaitForPhases. The types
package is not among the sources; the spec lists the phases in the order
created, configured, healthy. -/
def WaitForPhases : List WaitForPhase :=
  [WaitForPhase.created, WaitForPhase.configured, WaitForPhase.healthy]

/-- Source: types.WaitFor, a dependee node name together with the phase the
depender waits for. -/
structure WaitFor where
  node : String
  phase : WaitForPhase

/-- The per-node depender lists, one per phase: embedding of the inner map
of defaultDependencyManager.nodeDependers (map from WaitForPhase to a
string slice). -/
structure PhaseDependers where
  created : List String
  configured : List String
  healthy : List String
deriving DecidableEq

/-- Index a PhaseDependers record by phase. -/
def PhaseDependers.get (pd : PhaseDependers) : WaitForPhase → List String
  | .created => pd.created
  | .configured => pd.configured
  | .healthy => pd.healthy

/-- Append a depender name at the given phase. -/
def PhaseDependers.appendAt (pd : PhaseDependers) (phase : WaitForPhase) (name : String) :
    PhaseDependers :=
  match phase with
  | .created => { pd with created := pd.created ++ [name] }
  | .configured => { pd with configured := pd.configured ++ [name] }
  | .healthy => { pd with healthy := pd.healthy ++ [name] }

/-- The empty depender record created for every registered node. -/
def emptyPhaseDependers : PhaseDependers := ⟨[], [], []⟩

/-- Embedding of defaultDependencyManager: nodeWaitGroup is the per-node
outstanding counter of the sync.WaitGroup, nodeDependers the per-node,
per-phase depender lists. -/
structure DepMgr where
  wgKeys : List String
  wg : String → Nat
  depKeys : List String
  dependers : String → PhaseDependers

/-- Embedding of NewDependencyManager. -/
def newDependencyManager : DepMgr :=
  ⟨[], fun _ => 0, [], fun _ => emptyPhaseDependers⟩

/-- Embedding of defaultDependencyManager.AddNode: a fresh wait group and
empty depender lists for all phases. -/
def addNode (name : String) (dm : DepMgr) : DepMgr :=
  { wgKeys := if dm.wgKeys.contains name then dm.wgKeys else name :: dm.wgKeys
    wg := fun x => if x = name then 0 else dm.wg x
    depKeys := if dm.depKeys.contains name then dm.depKeys else name :: dm.depKeys
    dependers := fun x => if x = name then emptyPhaseDependers else dm.dependers x }

/-- Embedding of defaultDependencyManager.AddDependency: both names must be
registered; the depender wait group grows by one and the depender is
appended to the dependee list of the requested phase. -/
def addDependency (depender : String) (wf : WaitFor) (dm : DepMgr) : Except String DepMgr :=
  if dm.wgKeys.contains depender = false then
    .error ("node " ++ depender ++ " is not known to the dependency manager")
  else if dm.depKeys.contains wf.node = false then
    .error ("node " ++ wf.node ++ " is not known to the dependency manager")
  else
    .ok { dm with
      wg := fun x => if x = depender then dm.wg x + 1 else dm.wg x
      dependers := fun x =>
        if x = wf.node then (dm.dependers x).appendAt wf.phase depender
        else dm.dependers x }

/-- Embedding of WaitForNodeDependencies: error for an unregistered node,
otherwise .ok true when the wait group counter is zero, that is when the
Wait() call returns, and .ok false while the caller stays blocked. The
phase argument is received but, exactly as in the source, never used:
there is a single counter per node. -/
def waitForNodeDependencies (dm : DepMgr) (nodeName : String) (phase : WaitForPhase) :
    Except String Bool :=
  if dm.wgKeys.contains nodeName = false then
    .error ("node " ++ nodeName ++ " is not known to the dependency manager")
  else
    .ok (dm.wg nodeName == 0)

/-- Embedding of SignalDone: for every occurrence of a depender recorded
under the given node and phase one Done() is issued, so its counter drops
by the number of occurrences; an unknown node is logged and ignored. -/
def signalDone (nodeName : String) (phase : WaitForPhase) (dm : DepMgr) : DepMgr :=
  if dm.depKeys.contains nodeName = false then dm
  else { dm with wg := fun x => dm.wg x - ((dm.dependers nodeName).get phase).count x }

/-- Embedding of getDependersSliceWithoutPhasesDependency. The Go loop body
executes, for every node d and every phase in types.WaitForPhases in order,
the plain assignment
  dependers[d] = dm.nodeDependers[d][phase]
(it does not append), so the value kept for a node is the depender list of
the LAST phase of WaitForPhases; that is mirrored by the overwrite fold. -/
def getDependersSliceWithoutPhasesDependency (dm : DepMgr) : List (String × List String) :=
  dm.depKeys.map (fun d =>
    (d, WaitForPhases.foldl (fun _ phase => (dm.dependers d).get phase) []))

/-- Embedding of isAcyclic: strip the nodes that no other node depends on
and recurse on the remaining graph; if nodes remain but none is a leaf the
graph is cyclic. -/
def isAcyclic (nodeDependers : List (String × List String)) (i : Nat) : Bool :=
  if nodeDependers.isEmpty then true
  else
    let leafNodes := (nodeDependers.filter (fun p => p.2.isEmpty)).map Prod.fst
    let remainingNodeDependers := nodeDependers.filter (fun p => !p.2.isEmpty)
    if h : leafNodes.isEmpty then false
    else
      isAcyclic
        (remainingNodeDependers.map (fun p =>
          (p.1, p.2.filter (fun dep => !leafNodes.contains dep)))) (i + 1)
termination_by nodeDependers.length
decreasing_by
  simp only [List.length_map]
  have hne : (nodeDependers.filter (fun p => p.2.isEmpty)) ≠ [] := by
    intro hc
    apply h
    show (List.map Prod.fst (List.filter (fun p => p.2.isEmpty) nodeDependers)).isEmpty = true
    rw [hc]
    rfl
  rcases List.exists_mem_of_ne_nil _ hne with ⟨p, hp⟩
  have hpmem : p ∈ nodeDependers := (List.mem_filter.mp hp).1
  have hpempty : p.2.isEmpty = true := by
    simpa using (List.mem_filter.mp hp).2
  have h1 : (nodeDependers.filter (fun q => !q.2.isEmpty)).length ≤ nodeDependers.length :=
    List.length_filter_le _ nodeDependers
  rcases Nat.lt_or_ge (nodeDependers.filter (fun q => !q.2.isEmpty)).length
      nodeDependers.length with hlt | hge
  · exact hlt
  · exfalso
    have hall := List.filter_length_eq_length.mp (Nat.le_antisymm h1 hge)
    have hp2 := hall p hpmem
    rw [hpempty] at hp2
    simp at hp2

/-- Embedding of CheckAcyclicity: error exactly when isAcyclic, applied to
the phase-collapsed depender map, reports a cycle. -/
def checkAcyclicity (dm : DepMgr) : Except String Unit :=
  if isAcyclic (getDependersSliceWithoutPhasesDependency dm) 1 then .ok ()
  else .error "cyclic dependencies found"

/-- The merge that the spec (and the comment on
getDependersSliceWithoutPhasesDependency itself) describes: for every node
the depender lists of ALL phases are combined. Stated from the spec for
comparison with the code. -/
def specMergedDependers (dm : DepMgr) : List (String × List String) :=
  dm.depKeys.map (fun d =>
    (d, WaitForPhases.foldl (fun acc phase => acc ++ (dm.dependers d).get phase) []))

/-- Embedding of IsHealthCheckRequired: true when at least one depender is
recorded for the healthy phase of the node. -/
def isHealthCheckRequired (dm : DepMgr) (nodeName : String) : Except String Bool :=
  if dm.depKeys.contains nodeName = false then
    .error ("node " ++ nodeName ++ " not found in DependencyManager")
  else
    .ok (!((dm.dependers nodeName).healthy.isEmpty))

/-- Unwrap an Except with a default, used to state theorems about the
successful result without an existential. -/
def getOkD {α : Type} (dflt : α) : Except String α → α
  | .ok a => a
  | .error _ => dflt

/-- Whether an Except is a success. -/
def isOkE {α : Type} : Except String α → Bool
  | .ok _ => true
  | .error _ => false

/-- The failing input for the acyclicity check: two nodes that wait for
each other at phase created (the spec scenario S4). -/
def dmTwoNodes : DepMgr := addNode "y" (addNode "x" newDependencyManager)

/-- dmTwoNodes with the mutual created-phase dependencies recorded. -/
def dmCreatedCycle : DepMgr :=
  getOkD newDependencyManager
    ((addDependency "x" ⟨"y", .created⟩ dmTwoNodes).bind
      (fun dm => addDependency "y" ⟨"x", .created⟩ dm))

/-- A dependency manager where node a depends on node b at phase healthy
only; used to examine the phase sensitivity of the wait operation. -/
def dmHealthyDep : DepMgr :=
  getOkD newDependencyManager
    (addDependency "a" ⟨"b", .healthy⟩ (addNode "b" (addNode "a" newDependencyManager)))

/-- Number of prerequisites recorded for a node at one phase: how often the
node appears as a depender in some depender list of that phase. -/
def countPrereqsAt (dm : DepMgr) (name : String) (phase : WaitForPhase) : Nat :=
  (dm.depKeys.map (fun d => ((dm.dependers d).get phase).count name)).sum

/-- The NodeConfig fields inspected by the static-dynamic derivation. -/
structure NodeCfg where
  mgmtIPv4Address : String
  mgmtIPv6Address : String
deriving DecidableEq

/-- A node holds a static management IP when either address field is set
(the partition condition of createStaticDynamicDependency). -/
def NodeCfg.hasStaticMgmtIP (c : NodeCfg) : Bool :=
  c.mgmtIPv4Address != "" || c.mgmtIPv6Address != ""

/-- deploy.go registers every node with the dependency manager before any
dependency derivation runs (dm.AddNode for every node name). -/
def registerNodes (nodes : List (String × NodeCfg)) : DepMgr :=
  nodes.foldl (fun dm p => addNode p.1 dm) newDependencyManager

/-- Embedding of createStaticDynamicDependency: the nodes are partitioned
into static and dynamic management-IP nodes and every dynamic node gets a
created-phase dependency on every static node. -/
def createStaticDynamicDependency (nodes : List (String × NodeCfg)) (dm : DepMgr) :
    Except String DepMgr :=
  let staticIPNodes := nodes.filter (fun p => p.2.hasStaticMgmtIP)
  let dynIPNodes := nodes.filter (fun p => !p.2.hasStaticMgmtIP)
  dynIPNodes.foldlM
    (fun acc d =>
      staticIPNodes.foldlM
        (fun acc2 s => addDependency d.1 ⟨s.1, .created⟩ acc2) acc)
    dm

/-- Names of the nodes with a static management address. -/
def staticIPNames (nodes : List (String × NodeCfg)) : List String :=
  (nodes.filter (fun p => p.2.hasStaticMgmtIP)).map Prod.fst

/-- Names of the nodes without a static management address. -/
def dynIPNames (nodes : List (String × NodeCfg)) : List String :=
  (nodes.filter (fun p => !p.2.hasStaticMgmtIP)).map Prod.fst

/-- The static-dynamic derivation run over a freshly registered manager,
exactly as deployFn and CreateNodes do. -/
def staticDynResult (nodes : List (String × NodeCfg)) : Except String DepMgr :=
  createStaticDynamicDependency nodes (registerNodes nodes)

/-- The manager produced by the static-dynamic derivation. -/
def staticDynDM (nodes : List (String × NodeCfg)) : DepMgr :=
  getOkD newDependencyManager (staticDynResult nodes)

/-- Events of a deploy run, in emission order. -/
inductive DeployEvent where
  | preDeployEv (node : String)
  | deployEv (node : String)
  | nodeCreatedEv (node : String)
  | postDeployEv (node : String)
deriving DecidableEq

/-- Embedding of the per-node body of the scheduleNodes worker: PreDeploy,
then Deploy; a failure is logged and the worker moves on without marking
the node created and without signalling; on success the deployment status
is set to created under the lab lock and the created phase is signalled.
The Bool is the final this-node-created flag. -/
def workerNodeEvents (preDeployOk deployOk : String → Bool) (n : String) :
    List DeployEvent × Bool :=
  if preDeployOk n = false then ([.preDeployEv n], false)
  else if deployOk n = false then ([.preDeployEv n, .deployEv n], false)
  else ([.preDeployEv n, .deployEv n, .nodeCreatedEv n], true)

/-- Embedding of the deployFn ordering: all node workers finish their
deploy-phase work (nodesWg.Wait) and only then, unless skip-post-deploy is
set, PostDeploy is launched for EVERY node of the lab, successful or not.
The trace lists the deploy-phase events of all nodes followed by the
post-deploy events. -/
def deployFnTrace (nodes : List String) (preDeployOk deployOk : String → Bool)
    (skipPostDeploy : Bool) : List DeployEvent :=
  (nodes.map (fun n => (workerNodeEvents preDeployOk deployOk n).1)).flatten
    ++ (if skipPostDeploy then [] else nodes.map (fun n => .postDeployEv n))

/-- Container status as reported by the runtime (runtime.Running etc.). -/
inductive ContainerStatus where
  | running
  | stopped
  | notFound
deriving DecidableEq

/-- Outcome of WaitForExternalNodeDependencies. -/
inductive ExtWaitOutcome where
  | noExternalDependency
  | externalRunning
  | gaveUp
  | indexPanic
deriving DecidableEq

/-- The external-container polling budget: 15 minutes at one poll per
second. -/
def statusCheckTimeoutSeconds : Nat := 15 * 60

/-- Split a character list at the first colon, when one exists. -/
def splitFirstColonAux : List Char → Option (List Char × List Char)
  | [] => none
  | c :: rest =>
    if c = ':' then some ([], rest)
    else
      match splitFirstColonAux rest with
      | none => none
      | some (pre, post) => some (c :: pre, post)

/-- Embedding of strings.SplitN(s, colon, 2): the unsplit string when it
holds no colon, otherwise the part before the first colon and the rest. -/
def splitN2Colon (s : String) : List String :=
  match splitFirstColonAux s.toList with
  | none => [s]
  | some (pre, post) => [String.mk pre, String.mk post]

/-- Embedding of WaitForExternalNodeDependencies: nothing to wait for when
the node is unknown, the network mode is not container sharing, or the
referenced container is lab managed. Otherwise the runtime is polled once
a second until the referenced container is running or the 15 minute budget
expires; both outcomes terminate the wait. The expiry is logged at error
level and is not fatal. poll t is the status read at tick t. -/
def waitForExternalNodeDependencies (labNodes : List String) (nodeName : String)
    (networkMode : String) (poll : Nat → ContainerStatus) : ExtWaitOutcome :=
  if labNodes.contains nodeName = false then .noExternalDependency
  else
    match splitN2Colon networkMode with
    | [modeHead] =>
      if modeHead != "container" then .noExternalDependency else .indexPanic
    | [modeHead, contName] =>
      if modeHead != "container" then .noExternalDependency
      else if labNodes.contains contName then .noExternalDependency
      else if (List.range statusCheckTimeoutSeconds).any
          (fun t => poll (t + 1) == .running) then .externalRunning
      else .gaveUp
    | _ => .noExternalDependency

/-- Embedding of the per-node launcher goroutine of scheduleNodes: it waits
on the dependency manager, then performs the external-dependency wait, and
then pushes the node into the worker channel; the source has no branch that
skips the channel send, so the submitted flag is always true. -/
def launcherSubmits (labNodes : List String) (nodeName networkMode : String)
    (poll : Nat → ContainerStatus) : ExtWaitOutcome × Bool :=
  (waitForExternalNodeDependencies labNodes nodeName networkMode poll, true)

/-- Node states of the nodes/state package (not among the sources).
Modelled from the spec node state machine; Deployed is the state a node
reaches when its deploy phase finished (the spec state created). The
LinkVEth.Deploy guard distinguishes only Deployed from earlier states. -/
inductive NodeState where
  | defined
  | preDeployed
  | deployed
deriving DecidableEq

/-- Modelled from the spec link state machine (declared, deployed, removed):
the links package constant LinkDeploymentStateDeployed is not among the
sources; notDeployed stands for every state before deployed. -/
inductive LinkDeploymentState where
  | notDeployed
  | deployed
deriving DecidableEq

/-- GetLinkEndpointType of the endpoint node: bridge-kind endpoints get the
master adjustment, all others the plain rename adjustment. -/
inductive LinkEndpointType where
  | regular
  | bridge
deriving DecidableEq

/-- The endpoint data consulted by LinkVEth.Deploy, with the endpoint node
state observed by GetState at the time of the call. -/
structure EndpointV where
  nodeName : String
  nodeState : NodeState
  endpointType : LinkEndpointType
  ifaceName : String
  randIfaceName : String
deriving DecidableEq

/-- The netlink and namespace operations LinkVEth.Deploy performs, in
order. -/
inductive NetlinkAction where
  | linkAdd (name peerName : String) (mtu : Nat)
  | linkByName (name : String)
  | addLinkToContainer (nodeName ifaceName : String) (withMaster : Bool)
  | verifyMacAddress (nodeName : String)
deriving DecidableEq

/-- Success flags for the fallible operations inside LinkVEth.Deploy. -/
structure NetlinkEnv where
  linkAddOk : Bool
  linkByNameOk : Bool
  addLinkOk : Bool
  verifyMacOk : Bool
deriving DecidableEq

/-- Embedding of the LinkVEth struct: common MTU, the endpoints, and the
per-link deployment state guarded by the per-link mutex (calls are
serialized, so the embedding is sequential). -/
structure LinkVEth where
  mtu : Nat
  endpoints : List EndpointV
  deploymentState : LinkDeploymentState

/-- Result of one Deploy call: the netlink actions issued, the link
afterwards, and the returned error value. -/
structure VethDeployResult where
  actions : List NetlinkAction
  link : LinkVEth
  result : Except String Unit

/-- Embedding of LinkVEth.Deploy: return immediately when already
deployed; return (with success and no action) when any endpoint node has
not reached Deployed; otherwise create the veth pair, look up the peer,
push each side into its endpoint node namespace (with a bridge master for
bridge-kind endpoints), verify and populate the MAC addresses of all
endpoints, and only then mark the link deployed. An error on any step
returns at once, leaving the deployment state untouched. -/
def LinkVEth.deploy (env : NetlinkEnv) (l : LinkVEth) : VethDeployResult :=
  if l.deploymentState = .deployed then ⟨[], l, .ok ()⟩
  else if l.endpoints.any (fun ep => ep.nodeState != .deployed) then ⟨[], l, .ok ()⟩
  else
    match l.endpoints with
    | e0 :: e1 :: _ =>
      let addAct := NetlinkAction.linkAdd e0.randIfaceName e1.randIfaceName l.mtu
      if env.linkAddOk = false then ⟨[addAct], l, .error "netlink LinkAdd failed"⟩
      else if env.linkByNameOk = false then
        ⟨[addAct, .linkByName e1.randIfaceName], l, .error "netlink LinkByName failed"⟩
      else
        let cont0 := NetlinkAction.addLinkToContainer e0.nodeName e0.ifaceName
          (e0.endpointType = .bridge)
        let cont1 := NetlinkAction.addLinkToContainer e1.nodeName e1.ifaceName
          (e1.endpointType = .bridge)
        if env.addLinkOk = false then
          ⟨[addAct, .linkByName e1.randIfaceName, cont0], l,
            .error "failed to add link to container"⟩
        else if env.verifyMacOk = false then
          ⟨[addAct, .linkByName e1.randIfaceName, cont0, cont1,
              .verifyMacAddress e0.nodeName], l,
            .error "mac verification failed"⟩
        else
          ⟨[addAct, .linkByName e1.randIfaceName, cont0, cont1]
              ++ l.endpoints.map (fun ep => .verifyMacAddress ep.nodeName),
            { l with deploymentState := .deployed }, .ok ()⟩
    | _ => ⟨[], l, .error "index out of range"⟩

/-- Predicate for counting link-add syscalls. -/
def NetlinkAction.isLinkAdd : NetlinkAction → Bool
  | .linkAdd _ _ _ => true
  | _ => false

/-- N repeated Deploy invocations on the same link. The per-link mutex in
the source serializes racing callers, so the N concurrent goroutines of
the spec scenario execute as some sequence of N calls; the embedding
collects every netlink action and every returned result. -/
def LinkVEth.deployN (env : NetlinkEnv) (l : LinkVEth) :
    Nat → List NetlinkAction × List (Except String Unit) × LinkVEth
  | 0 => ([], [], l)
  | n + 1 =>
    let r := LinkVEth.deploy env l
    let rest := LinkVEth.deployN env r.link n
    (r.actions ++ rest.1, r.result :: rest.2.1, rest.2.2)

/-- The endpoint-node data of types.Link consulted by CLab.CreateLinks. -/
structure BriefLink where
  aNode : String
  bNode : String
deriving DecidableEq

/-- Embedding of the dispatch condition of CLab.CreateLinks: under the lab
lock, a link is sent to a worker only when the deployment status of both
endpoint nodes reads created; this is the set of links one sweep over the
pending map may dispatch given the current status map. -/
def dispatchableLinks (status : String → String) (links : List BriefLink) : List BriefLink :=
  links.filter (fun lk => status lk.aNode == "created" && status lk.bNode == "created")

/-- The docker client container state: the Health field is a pointer that
is nil when the container defines no health check, modelled as an Option. -/
structure DockerHealth where
  status : String
deriving DecidableEq

/-- docker inspect.State. -/
structure DockerContainerState where
  health : Option DockerHealth
deriving DecidableEq

/-- docker inspect result. -/
structure DockerInspect where
  state : DockerContainerState
deriving DecidableEq

/-- Outcome of a Go call returning (bool, error): a value, a returned
error, or a run-time panic from dereferencing a nil pointer. -/
inductive GoBoolResult where
  | ok (value : Bool)
  | err (msg : String)
  | nilPanic
deriving DecidableEq

/-- Embedding of DockerRuntime.GetContainerHealth: an inspect failure is
returned as the error; otherwise inspect.State.Health.Status is compared
with the literal Healthy. With no health probe the Health pointer is nil
and the field access panics. -/
def dockerGetContainerHealth (inspectResult : Except String DockerInspect) : GoBoolResult :=
  match inspectResult with
  | .error e => .err e
  | .ok inspect =>
    match inspect.state.health with
    | none => .nilPanic
    | some h => .ok (h.status == "Healthy")

/-- The podman bindings container state: Health is a value struct whose
Status is the empty string when the container has no health probe. -/
structure PodmanHealth where
  status : String
deriving DecidableEq

/-- podman inspect State. -/
structure PodmanContainerState where
  health : PodmanHealth
deriving DecidableEq

/-- podman inspect result. -/
structure PodmanInspect where
  state : PodmanContainerState
deriving DecidableEq

/-- Embedding of PodmanRuntime.GetContainerHealth: connection and inspect
failures are returned; otherwise State.Health.Status is compared with the
literal healthy. -/
def podmanGetContainerHealth (connectResult : Except String Unit)
    (inspectResult : Except String PodmanInspect) : GoBoolResult :=
  match connectResult with
  | .error e => .err e
  | .ok _ =>
    match inspectResult with
    | .error e => .err e
    | .ok icd => .ok (icd.state.health.status == "healthy")

/-- An endpoint as compared by CheckEndpointUniqueness: the id models the
Go object identity (the source compares interface values, that is
pointers), nodeId the node reference, iface the interface name. -/
structure EndpointE where
  id : Nat
  nodeId : Nat
  iface : String
deriving DecidableEq

/-- Embedding of EndpointGeneric.HasSameNodeAndInterface. -/
def hasSameNodeAndInterface (e ept : EndpointE) : Bool :=
  e.nodeId == ept.nodeId && e.iface == ept.iface

/-- Embedding of CheckEndpointUniqueness: scan the endpoint list of the
node that owns e, skip e itself (identity comparison), and fail on the
first distinct endpoint with the same node and interface name. -/
def checkEndpointUniqueness (nodeEndpoints : List EndpointE) (e : EndpointE) :
    Except String Unit :=
  match nodeEndpoints.find? (fun ept => ept != e && hasSameNodeAndInterface e ept) with
  | some _ => .error ("duplicate endpoint " ++ toString e.nodeId ++ ":" ++ e.iface)
  | none => .ok ()

/-- The CLab fields the timeout option touches. Durations are int64
nanosecond counts in Go, modelled as Int; the zero value is the timeout of
a freshly constructed lab. Fields not consulted by the claims are
omitted. -/
structure CLabModel where
  timeout : Int
deriving DecidableEq

/-- The lab value NewContainerLab builds before applying options. -/
def newCLabInit : CLabModel := { timeout := 0 }

/-- A functional lab option, as in the source. -/
def ClabOption : Type := CLabModel → Except String CLabModel

/-- Embedding of WithTimeout: reject zero and negative durations, accept
and store positive ones. -/
def withTimeout (dur : Int) : ClabOption := fun c =>
  if dur ≤ 0 then .error "zero or negative timeouts are not allowed"
  else .ok { c with timeout := dur }

/-- Embedding of NewContainerLab: the options run in order and the first
failing option aborts the construction with its error, returning no lab. -/
def newContainerLab (opts : List ClabOption) : Except String CLabModel :=
  opts.foldlM (fun c opt => opt c) newCLabInit

/-- Helper: concrete evaluation of the phase-collapsed depender map of the
two-node created-phase cycle. -/
theorem dmCreatedCycle_collapsed_eval :
    getDependersSliceWithoutPhasesDependency dmCreatedCycle = [("y", []), ("x", [])] := by
  rfl

/-- Helper: concrete evaluation of the spec-side merged depender map of the
two-node created-phase cycle. -/
theorem dmCreatedCycle_merged_eval :
    specMergedDependers dmCreatedCycle = [("y", ["x"]), ("x", ["y"])] := by
  rfl

/-- C1: CheckAcyclicity is claimed to fail exactly when the union of the
depender relations of all phases has a cycle. On the two-node topology
where x and y wait for each other at phase created (scenario S4) the
recorded dependers are mutual, the merged relation is cyclic and the very
sweep the code uses rejects it, yet CheckAcyclicity reports no error:
getDependersSliceWithoutPhasesDependency overwrites instead of merging, so
only the depender lists of the last phase (healthy, all empty here)
survive. -/
theorem checkAcyclicity_misses_created_phase_cycle :
    checkAcyclicity dmCreatedCycle = .ok ()
    ∧ (dmCreatedCycle.dependers "y").created = ["x"]
    ∧ (dmCreatedCycle.dependers "x").created = ["y"]
    ∧ isAcyclic (specMergedDependers dmCreatedCycle) 1 = false := by
  refine ⟨?_, by rfl, by rfl, ?_⟩
  · show checkAcyclicity dmCreatedCycle = .ok ()
    unfold checkAcyclicity
    rw [dmCreatedCycle_collapsed_eval]
    have h2 : isAcyclic [("y", []), ("x", [])] 1 = true := by
      rw [isAcyclic]
      norm_num
      rw [isAcyclic]
      rfl
    rw [h2]
    rfl
  · rw [dmCreatedCycle_merged_eval]
    rw [isAcyclic]
    norm_num

/-- C5 counterexample: node a has no prerequisite recorded at phase
created, only one at phase healthy, yet wait(a, created) stays blocked:
the counter consulted by WaitForNodeDependencies is per node, not per
phase. -/
theorem wait_blocks_on_other_phase_prereq :
    countPrereqsAt dmHealthyDep "a" .created = 0
    ∧ countPrereqsAt dmHealthyDep "a" .healthy = 1
    ∧ waitForNodeDependencies dmHealthyDep "a" .created = .ok false := by
  exact ⟨rfl, rfl, rfl⟩

/-- C5 amended: wait(name, phase) errors on an unknown node and otherwise
unblocks exactly when the single per-node outstanding counter is zero;
that counter is shared by all phases, so the result never depends on the
phase argument and prerequisites recorded at other phases keep the caller
blocked. -/
theorem waitForNodeDependencies_phase_insensitive :
    ∀ (dm : DepMgr) (name : String) (p q : WaitForPhase),
      waitForNodeDependencies dm name p = waitForNodeDependencies dm name q
      ∧ (waitForNodeDependencies dm name p = .ok true ↔
          dm.wgKeys.contains name = true ∧ dm.wg name = 0) := by
  intro dm name p q
  refine ⟨rfl, ?_⟩
  unfold waitForNodeDependencies
  rcases hc : dm.wgKeys.contains name with _ | _
  · simp
  · simp [beq_iff_eq]

/-- C7 counterexample: with no health probe the docker runtime
dereferences the nil Health pointer (a crash, not an error return) and the
podman runtime returns the boolean false together with a nil error;
neither fails with an Unavailable error. -/
theorem getContainerHealth_no_probe_no_unavailable_error :
    dockerGetContainerHealth (.ok ⟨⟨none⟩⟩) = .nilPanic
    ∧ podmanGetContainerHealth (.ok ()) (.ok ⟨⟨⟨""⟩⟩⟩) = .ok false := by
  exact ⟨rfl, rfl⟩

/-- C7 amended: when the container reports a health state both runtimes
return a boolean, true exactly when the reported status equals the
runtime-specific healthy literal; an error is returned only when the
inspect (or podman connect) call itself fails; with no health probe the
docker runtime panics on the nil Health pointer and the podman runtime
returns false, so no Unavailable error path exists. -/
theorem getContainerHealth_behaviour :
    (∀ st : String, dockerGetContainerHealth (.ok ⟨⟨some ⟨st⟩⟩⟩) = .ok (st == "Healthy"))
    ∧ (∀ st : String, podmanGetContainerHealth (.ok ()) (.ok ⟨⟨⟨st⟩⟩⟩) = .ok (st == "healthy"))
    ∧ (∀ insp : DockerInspect,
        dockerGetContainerHealth (.ok insp) = .nilPanic
        ∨ ∃ b, dockerGetContainerHealth (.ok insp) = .ok b)
    ∧ (∀ icd : PodmanInspect, ∃ b, podmanGetContainerHealth (.ok ()) (.ok icd) = .ok b)
    ∧ (∀ e : String, dockerGetContainerHealth (.error e) = .err e)
    ∧ (∀ (e : String) (icd : Except String PodmanInspect),
        podmanGetContainerHealth (.error e) icd = .err e)
    ∧ dockerGetContainerHealth (.ok ⟨⟨none⟩⟩) = .nilPanic := by
  refine ⟨fun st => rfl, fun st => rfl, ?_, ?_, fun e => rfl, fun e icd => rfl, rfl⟩
  · intro insp
    rcases insp with ⟨⟨h⟩⟩
    rcases h with _ | h
    · exact Or.inl rfl
    · exact Or.inr ⟨_, rfl⟩
  · intro icd
    exact ⟨_, rfl⟩

/-- C10: WithTimeout rejects zero and negative durations, and the option
chain of NewContainerLab aborts at the first failing option, so no lab is
returned; a strictly positive duration is stored unchanged in the lab
timeout field. -/
theorem withTimeout_rejects_nonpositive :
    (∀ (dur : Int) (rest : List ClabOption), dur ≤ 0 →
      newContainerLab (withTimeout dur :: rest)
        = .error "zero or negative timeouts are not allowed")
    ∧ (∀ dur : Int, 0 < dur → newContainerLab [withTimeout dur] = .ok { timeout := dur }) := by
  constructor
  · intro dur rest h
    simp [newContainerLab, List.foldlM, withTimeout, h]
    rfl
  · intro dur h
    have hn : ¬ dur ≤ 0 := by omega
    simp [newContainerLab, List.foldlM, withTimeout, hn]

/-- Witness for withTimeout_rejects_nonpositive at the concrete durations
-5 and 7. -/
theorem withTimeout_rejects_nonpositive_witness :
    newContainerLab [withTimeout (-5), withTimeout 3]
      = .error "zero or negative timeouts are not allowed"
    ∧ newContainerLab [withTimeout 7] = .ok { timeout := 7 } :=
  ⟨withTimeout_rejects_nonpositive.1 (-5) [withTimeout 3] (by norm_num),
   withTimeout_rejects_nonpositive.2 7 (by norm_num)⟩

/-- C6 counterexample: a node whose network-mode references an external
container that never runs: the poll budget expires (gaveUp), yet the
launcher still submits the node to the node-creation worker channel. -/
theorem extwait_expiry_still_submits_concrete :
    (launcherSubmits ["n1"] "n1" "container:ext1" (fun _ => ContainerStatus.stopped)).1
      = ExtWaitOutcome.gaveUp
    ∧ (launcherSubmits ["n1"] "n1" "container:ext1" (fun _ => ContainerStatus.stopped)).2
      = true := by
  have hany : (List.range statusCheckTimeoutSeconds).any
      (fun t => (fun _ => ContainerStatus.stopped) (t + 1) == ContainerStatus.running)
      = false := by
    rw [List.any_eq_false]
    intro t _
    simp
  constructor
  · unfold launcherSubmits waitForExternalNodeDependencies
    have hsplit : splitN2Colon "container:ext1" = ["container", "ext1"] := by decide
    simp [hsplit, hany]
  · rfl

/-- C6 amended: when the external container referenced by the network-mode
is not lab managed and never reports running within the 15 minute, one
second budget, the waiter gives up (the expiry is logged at error level
and is non-fatal) and the node is nevertheless submitted to the worker
channel; deployment of the remaining nodes continues. -/
theorem extwait_timeout_nonfatal_still_submits :
    ∀ (labNodes : List String) (n networkMode ext : String) (poll : Nat → ContainerStatus),
      labNodes.contains n = true →
      splitN2Colon networkMode = ["container", ext] →
      labNodes.contains ext = false →
      (∀ t, poll t ≠ .running) →
      launcherSubmits labNodes n networkMode poll = (.gaveUp, true) := by
  intro labNodes n networkMode ext poll hn hsplit hext hpoll
  have hany : (List.range statusCheckTimeoutSeconds).any
      (fun t => poll (t + 1) == ContainerStatus.running) = false := by
    rw [List.any_eq_false]
    intro t _
    simpa using hpoll (t + 1)
  have hnm : n ∈ labNodes := by simpa using hn
  have hextm : ext ∉ labNodes := by simpa using hext
  unfold launcherSubmits waitForExternalNodeDependencies
  simp [hnm, hextm, hsplit, hany]

/-- Witness for extwait_timeout_nonfatal_still_submits on a two-node lab
with a never-found external container. -/
theorem extwait_timeout_nonfatal_witness :
    launcherSubmits ["a", "b"] "b" "container:missing" (fun _ => ContainerStatus.notFound)
      = (.gaveUp, true) :=
  extwait_timeout_nonfatal_still_submits ["a", "b"] "b" "container:missing" "missing"
    (fun _ => ContainerStatus.notFound) (by decide) (by decide) (by decide)
    (fun _ h => ContainerStatus.noConfusion h)

/-- C4 counterexample: a single-node lab whose deploy fails: the node is
never marked created, yet its post-deploy hook is still invoked by the
post-deploy pass of deployFn, which loops over every node of the lab. -/
theorem postDeploy_runs_for_failed_node :
    DeployEvent.deployEv "a" ∈ deployFnTrace ["a"] (fun _ => true) (fun _ => false) false
    ∧ DeployEvent.nodeCreatedEv "a" ∉ deployFnTrace ["a"] (fun _ => true) (fun _ => false) false
    ∧ DeployEvent.postDeployEv "a" ∈ deployFnTrace ["a"] (fun _ => true) (fun _ => false) false := by
  refine ⟨by decide, by decide, by decide⟩

/-- C4 amended: the deploy trace is the deploy-phase events of all workers
followed by the post-deploy events (the nodesWg barrier orders the two
blocks), no post-deploy event occurs in the deploy-phase block, so every
post-deploy strictly follows every deploy; but unless skip-post-deploy is
set the post-deploy hook is invoked for EVERY node of the lab, whether or
not its pre-deploy or deploy succeeded. -/
theorem postDeploy_after_deploy_for_every_node :
    ∀ (nodes : List String) (preDeployOk deployOk : String → Bool) (skip : Bool),
      deployFnTrace nodes preDeployOk deployOk skip
        = (nodes.map (fun n => (workerNodeEvents preDeployOk deployOk n).1)).flatten
          ++ (if skip then [] else nodes.map (fun n => DeployEvent.postDeployEv n))
      ∧ (∀ e ∈ (nodes.map (fun n => (workerNodeEvents preDeployOk deployOk n).1)).flatten,
          ∀ m : String, e ≠ DeployEvent.postDeployEv m)
      ∧ (skip = false → ∀ n ∈ nodes,
          DeployEvent.postDeployEv n ∈ deployFnTrace nodes preDeployOk deployOk skip) := by
  intro nodes preDeployOk deployOk skip
  refine ⟨rfl, ?_, ?_⟩
  · intro e he m
    rcases List.mem_flatten.mp he with ⟨evs, hevs, hein⟩
    rcases List.mem_map.mp hevs with ⟨n, _, hn⟩
    subst hn
    have hnofin : ∀ ev ∈ (workerNodeEvents preDeployOk deployOk n).1,
        ∀ mm : String, ev ≠ DeployEvent.postDeployEv mm := by
      unfold workerNodeEvents
      by_cases hpre : preDeployOk n = false
      · simp [hpre]
      · by_cases hdep : deployOk n = false <;> simp [hpre, hdep]
    exact hnofin e hein m
  · intro hskip n hn
    unfold deployFnTrace
    rw [hskip]
    refine List.mem_append.mpr (Or.inr ?_)
    simpa using List.mem_map_of_mem (fun n => DeployEvent.postDeployEv n) hn

/-- Witness for postDeploy_after_deploy_for_every_node: in a two-node lab
where deploy of node a fails, the post-deploy event of a is still in the
trace. -/
theorem postDeploy_after_deploy_witness :
    DeployEvent.postDeployEv "a"
      ∈ deployFnTrace ["a", "b"] (fun _ => true) (fun n => n == "b") false :=
  (postDeploy_after_deploy_for_every_node ["a", "b"] (fun _ => true) (fun n => n == "b")
    false).2.2 rfl "a" (by decide)

/-- C9: CheckEndpointUniqueness fails exactly when the owning node has
another, distinct endpoint with the same node reference and interface
name; a node whose (node, interface) pairs are pairwise distinct passes
for every one of its endpoints, and any pair of distinct endpoints sharing
(node, interface) is rejected. -/
theorem checkEndpointUniqueness_iff :
    (∀ (eps : List EndpointE) (e : EndpointE),
      isOkE (checkEndpointUniqueness eps e) = false ↔
        ∃ ept ∈ eps, ept ≠ e ∧ e.nodeId = ept.nodeId ∧ e.iface = ept.iface)
    ∧ (∀ eps : List EndpointE,
        eps.Pairwise (fun a b => a.nodeId ≠ b.nodeId ∨ a.iface ≠ b.iface) →
        ∀ e ∈ eps, checkEndpointUniqueness eps e = .ok ())
    ∧ (∀ (eps : List EndpointE) (e1 e2 : EndpointE), e1 ∈ eps → e2 ∈ eps → e1 ≠ e2 →
        e1.nodeId = e2.nodeId → e1.iface = e2.iface →
        isOkE (checkEndpointUniqueness eps e1) = false) := by
  have hpred : ∀ (e ept : EndpointE),
      ((ept != e && hasSameNodeAndInterface e ept) = true) ↔
        (ept ≠ e ∧ e.nodeId = ept.nodeId ∧ e.iface = ept.iface) := by
    intro e ept
    simp [hasSameNodeAndInterface, bne_iff_ne, and_assoc]
  have hmain : ∀ (eps : List EndpointE) (e : EndpointE),
      isOkE (checkEndpointUniqueness eps e) = false ↔
        ∃ ept ∈ eps, ept ≠ e ∧ e.nodeId = ept.nodeId ∧ e.iface = ept.iface := by
    intro eps e
    unfold checkEndpointUniqueness
    rcases hf : eps.find? (fun ept => ept != e && hasSameNodeAndInterface e ept)
        with _ | ⟨dup⟩
    · rw [List.find?_eq_none] at hf
      simp only [isOkE]
      constructor
      · intro hc
        cases hc
      · rintro ⟨ept, hmem, hne, hnid, hif⟩
        exact absurd ((hpred e ept).mpr ⟨hne, hnid, hif⟩) (by simpa using hf ept hmem)
    · have hpd := List.find?_some hf
      simp only [isOkE]
      constructor
      · intro _
        exact ⟨dup, List.mem_of_find?_eq_some hf, (hpred e dup).mp hpd⟩
      · intro _
        trivial
  refine ⟨hmain, ?_, ?_⟩
  · intro eps hpw e hemem
    have hnone : isOkE (checkEndpointUniqueness eps e) ≠ false := by
      intro hc
      rw [hmain] at hc
      rcases hc with ⟨ept, hmem, hne, hnid, hif⟩
      have hsym : Symmetric (fun a b : EndpointE => a.nodeId ≠ b.nodeId ∨ a.iface ≠ b.iface) := by
        intro a b hab
        rcases hab with hx | hx
        · exact Or.inl (Ne.symm hx)
        · exact Or.inr (Ne.symm hx)
      have hr := List.Pairwise.forall hsym hpw hemem hmem (Ne.symm hne)
      rcases hr with hx | hx
      · exact hx hnid
      · exact hx hif
    unfold checkEndpointUniqueness at hnone ⊢
    rcases hf : eps.find? (fun ept => ept != e && hasSameNodeAndInterface e ept)
        with _ | ⟨dup⟩
    · rfl
    · rw [hf] at hnone
      simp [isOkE] at hnone
  · intro eps e1 e2 h1 h2 hne hnid hif
    exact (hmain eps e1).mpr ⟨e2, h2, Ne.symm hne, hnid, hif⟩

/-- Witness for checkEndpointUniqueness_iff: a node with two distinct
endpoints sharing interface eth1 is rejected, and a node with two
different interfaces passes. -/
theorem checkEndpointUniqueness_witness :
    isOkE (checkEndpointUniqueness
      [⟨0, 1, "eth1"⟩, ⟨1, 1, "eth1"⟩] ⟨0, 1, "eth1"⟩) = false
    ∧ checkEndpointUniqueness
      [⟨0, 1, "eth1"⟩, ⟨1, 1, "eth2"⟩] ⟨0, 1, "eth1"⟩ = .ok () :=
  ⟨checkEndpointUniqueness_iff.2.2 [⟨0, 1, "eth1"⟩, ⟨1, 1, "eth1"⟩]
      ⟨0, 1, "eth1"⟩ ⟨1, 1, "eth1"⟩ (by decide) (by decide) (by decide) rfl rfl,
   checkEndpointUniqueness_iff.2.1 [⟨0, 1, "eth1"⟩, ⟨1, 1, "eth2"⟩]
      (by decide) ⟨0, 1, "eth1"⟩ (by decide)⟩

/-- C2: when any endpoint node of an undeployed veth link has not reached
Deployed, Deploy returns success without issuing any netlink action and
the link stays undeployed; a link-add can only appear when every endpoint
node is Deployed; and the CreateLinks sweep dispatches exactly the pending
links whose two endpoint nodes read deployment status created. -/
theorem veth_deploy_node_state_gating :
    (∀ (env : NetlinkEnv) (l : LinkVEth), l.deploymentState = .notDeployed →
      (∃ ep ∈ l.endpoints, ep.nodeState ≠ .deployed) →
      (LinkVEth.deploy env l).actions = []
      ∧ (LinkVEth.deploy env l).link.deploymentState = .notDeployed
      ∧ (LinkVEth.deploy env l).result = .ok ())
    ∧ (∀ (env : NetlinkEnv) (l : LinkVEth) (a b : String) (m : Nat),
        NetlinkAction.linkAdd a b m ∈ (LinkVEth.deploy env l).actions →
        ∀ ep ∈ l.endpoints, ep.nodeState = .deployed)
    ∧ (∀ (status : String → String) (links : List BriefLink) (lk : BriefLink),
        lk ∈ dispatchableLinks status links ↔
          lk ∈ links ∧ status lk.aNode = "created" ∧ status lk.bNode = "created") := by
  refine ⟨?_, ?_, ?_⟩
  · intro env l hstate hep
    have hany : l.endpoints.any (fun ep => ep.nodeState != .deployed) = true := by
      rw [List.any_eq_true]
      rcases hep with ⟨ep, hmem, hne⟩
      exact ⟨ep, hmem, by simpa [bne_iff_ne] using hne⟩
    unfold LinkVEth.deploy
    rw [hstate, hany]
    simp [hstate]
  · intro env l a b m hmem ep hep
    unfold LinkVEth.deploy at hmem
    by_cases hstate : l.deploymentState = .deployed
    · rw [if_pos hstate] at hmem
      cases hmem
    · rw [if_neg hstate] at hmem
      by_cases hany : l.endpoints.any (fun ep => ep.nodeState != .deployed) = true
      · rw [if_pos hany] at hmem
        cases hmem
      · rw [List.any_eq_true] at hany
        push_neg at hany
        have := hany ep hep
        simpa [bne_iff_ne] using this
  · intro status links lk
    unfold dispatchableLinks
    rw [List.mem_filter]
    simp [and_assoc]

/-- Witness for veth_deploy_node_state_gating: a two-endpoint link whose
second node is still pre-deployed yields no action and stays undeployed,
and a concrete pending link with both statuses created is dispatchable. -/
theorem veth_deploy_node_state_gating_witness :
    ((LinkVEth.deploy ⟨true, true, true, true⟩
        ⟨9500, [⟨"n1", NodeState.deployed, .regular, "eth1", "r1"⟩,
          ⟨"n2", NodeState.preDeployed, .regular, "eth1", "r2"⟩],
          .notDeployed⟩).actions = []
      ∧ (LinkVEth.deploy ⟨true, true, true, true⟩
        ⟨9500, [⟨"n1", NodeState.deployed, .regular, "eth1", "r1"⟩,
          ⟨"n2", NodeState.preDeployed, .regular, "eth1", "r2"⟩],
          .notDeployed⟩).link.deploymentState = .notDeployed
      ∧ (LinkVEth.deploy ⟨true, true, true, true⟩
        ⟨9500, [⟨"n1", NodeState.deployed, .regular, "eth1", "r1"⟩,
          ⟨"n2", NodeState.preDeployed, .regular, "eth1", "r2"⟩],
          .notDeployed⟩).result = .ok ())
    ∧ (⟨"x", "y"⟩ ∈ dispatchableLinks (fun _ => "created") [⟨"x", "y"⟩] ↔
        (⟨"x", "y"⟩ : BriefLink) ∈ [(⟨"x", "y"⟩ : BriefLink)]
        ∧ "created" = "created" ∧ "created" = "created") :=
  ⟨veth_deploy_node_state_gating.1 ⟨true, true, true, true⟩
      ⟨9500, [⟨"n1", NodeState.deployed, .regular, "eth1", "r1"⟩,
        ⟨"n2", NodeState.preDeployed, .regular, "eth1", "r2"⟩], .notDeployed⟩
      rfl (by decide),
   veth_deploy_node_state_gating.2.2 (fun _ => "created") [⟨"x", "y"⟩] ⟨"x", "y"⟩⟩

/-- Helper: a deployed link is a complete no-op for Deploy. -/
theorem deploy_when_deployed (env : NetlinkEnv) (l : LinkVEth)
    (h : l.deploymentState = .deployed) :
    LinkVEth.deploy env l = ⟨[], l, .ok ()⟩ := by
  unfold LinkVEth.deploy
  rw [if_pos h]

/-- Helper: every further Deploy call on a deployed link issues no action
and returns success. -/
theorem deployN_when_deployed (env : NetlinkEnv) :
    ∀ (n : Nat) (l : LinkVEth), l.deploymentState = .deployed →
      LinkVEth.deployN env l n = ([], List.replicate n (.ok ()), l) := by
  intro n
  induction n with
  | zero =>
    intro l h
    rfl
  | succ m ih =>
    intro l h
    unfold LinkVEth.deployN
    rw [deploy_when_deployed env l h]
    simp [ih l h, List.replicate_succ]

/-- Helper: no verify-mac action is a link-add. -/
theorem countP_verifyMac_zero (eps : List EndpointV) :
    (eps.map (fun ep => NetlinkAction.verifyMacAddress ep.nodeName)).countP
      (fun a => NetlinkAction.isLinkAdd a) = 0 := by
  rw [List.countP_eq_zero]
  intro a ha
  rcases List.mem_map.mp ha with ⟨ep, _, hep⟩
  subst hep
  simp [NetlinkAction.isLinkAdd]

/-- Helper: the first successful Deploy on an undeployed link with both
endpoint nodes Deployed issues exactly one link-add, marks the link
deployed and returns success. -/
theorem deploy_first_success (l : LinkVEth)
    (hstate : l.deploymentState = .notDeployed)
    (hall : ∀ ep ∈ l.endpoints, ep.nodeState = .deployed)
    (hlen : 2 ≤ l.endpoints.length) :
    (LinkVEth.deploy ⟨true, true, true, true⟩ l).actions.countP
        (fun a => NetlinkAction.isLinkAdd a) = 1
    ∧ (LinkVEth.deploy ⟨true, true, true, true⟩ l).link.deploymentState = .deployed
    ∧ (LinkVEth.deploy ⟨true, true, true, true⟩ l).result = .ok () := by
  have hany : l.endpoints.any (fun ep => ep.nodeState != .deployed) = false := by
    rw [List.any_eq_false]
    intro ep hep
    simp [bne_iff_ne, hall ep hep]
  obtain ⟨e0, e1, rest, hE⟩ : ∃ e0 e1 rest, l.endpoints = e0 :: e1 :: rest := by
    rcases hl : l.endpoints with _ | ⟨a, _ | ⟨b, t⟩⟩
    · rw [hl] at hlen
      simp at hlen
    · rw [hl] at hlen
      simp at hlen
    · exact ⟨a, b, t, rfl⟩
  unfold LinkVEth.deploy
  rw [hstate, hany, hE]
  simp [List.countP_cons, List.countP_append, countP_verifyMac_zero,
    NetlinkAction.isLinkAdd]

/-- C3: with both endpoint nodes created and the netlink operations
succeeding, any sequence of N at least 1 Deploy invocations on one link
(serialized by the per-link mutex) issues exactly one link-add and every
invocation returns success. -/
theorem veth_deploy_at_most_once :
    ∀ (n : Nat) (l : LinkVEth), 1 ≤ n →
      l.deploymentState = .notDeployed →
      (∀ ep ∈ l.endpoints, ep.nodeState = .deployed) →
      2 ≤ l.endpoints.length →
      (LinkVEth.deployN ⟨true, true, true, true⟩ l n).1.countP
          (fun a => NetlinkAction.isLinkAdd a) = 1
      ∧ ∀ r ∈ (LinkVEth.deployN ⟨true, true, true, true⟩ l n).2.1, r = .ok () := by
  intro n l hn hstate hall hlen
  rcases n with _ | m
  · omega
  · obtain ⟨h1, h2, h3⟩ := deploy_first_success l hstate hall hlen
    unfold LinkVEth.deployN
    dsimp only
    rw [deployN_when_deployed _ m _ h2]
    constructor
    · simp [List.countP_append, h1]
    · intro r hr
      simp only [List.append_nil] at hr
      rcases List.mem_cons.mp hr with hcase | hcase
      · rw [hcase, h3]
      · exact List.eq_of_mem_replicate hcase

/-- Witness for veth_deploy_at_most_once: three Deploy calls on a concrete
two-endpoint link with both nodes created issue one link-add in total and
return success each time. -/
theorem veth_deploy_at_most_once_witness :
    (LinkVEth.deployN ⟨true, true, true, true⟩
        ⟨9500, [⟨"n1", NodeState.deployed, .regular, "eth1", "r1"⟩,
          ⟨"n2", NodeState.deployed, .regular, "eth1", "r2"⟩], .notDeployed⟩ 3).1.countP
        (fun a => NetlinkAction.isLinkAdd a) = 1
    ∧ ∀ r ∈ (LinkVEth.deployN ⟨true, true, true, true⟩
        ⟨9500, [⟨"n1", NodeState.deployed, .regular, "eth1", "r1"⟩,
          ⟨"n2", NodeState.deployed, .regular, "eth1", "r2"⟩], .notDeployed⟩ 3).2.1,
        r = .ok () :=
  veth_deploy_at_most_once 3
    ⟨9500, [⟨"n1", NodeState.deployed, .regular, "eth1", "r1"⟩,
      ⟨"n2", NodeState.deployed, .regular, "eth1", "r2"⟩], .notDeployed⟩
    (by norm_num) rfl (by decide) (by decide)

/-- Helper: list contains for strings agrees with membership. -/
theorem strContains_iff_mem (l : List String) (x : String) :
    l.contains x = true ↔ x ∈ l := by
  simp

/-- Helper: the wait group counters of a freshly registered manager are all
zero. -/
theorem registerNodes_wg (nodes : List (String × NodeCfg)) (x : String) :
    (registerNodes nodes).wg x = 0 := by
  suffices h : ∀ (ns : List (String × NodeCfg)) (dm : DepMgr), (∀ y, dm.wg y = 0) →
      ∀ y, (ns.foldl (fun acc p => addNode p.1 acc) dm).wg y = 0 by
    exact h nodes newDependencyManager (fun _ => rfl) x
  intro ns
  induction ns with
  | nil => intro dm h y; exact h y
  | cons p t ih =>
    intro dm h y
    refine ih (addNode p.1 dm) ?_ y
    intro z
    unfold addNode
    by_cases hz : z = p.1 <;> simp [hz, h z]

/-- Helper: the depender records of a freshly registered manager are all
empty. -/
theorem registerNodes_dependers (nodes : List (String × NodeCfg)) (x : String) :
    (registerNodes nodes).dependers x = emptyPhaseDependers := by
  suffices h : ∀ (ns : List (String × NodeCfg)) (dm : DepMgr),
      (∀ y, dm.dependers y = emptyPhaseDependers) →
      ∀ y, (ns.foldl (fun acc p => addNode p.1 acc) dm).dependers y = emptyPhaseDependers by
    exact h nodes newDependencyManager (fun _ => rfl) x
  intro ns
  induction ns with
  | nil => intro dm h y; exact h y
  | cons p t ih =>
    intro dm h y
    refine ih (addNode p.1 dm) ?_ y
    intro z
    unfold addNode
    by_cases hz : z = p.1 <;> simp [hz, h z]

/-- Helper: adding a node makes its name a member of the wait group keys
and keeps the others. -/
theorem addNode_wgKeys_mem (name : String) (dm : DepMgr) (y : String) :
    y ∈ (addNode name dm).wgKeys ↔ (y = name ∨ y ∈ dm.wgKeys) := by
  unfold addNode
  by_cases hc : dm.wgKeys.contains name = true
  · have hmem : name ∈ dm.wgKeys := (strContains_iff_mem _ _).mp hc
    simp only [hc, if_true]
    constructor
    · exact Or.inr
    · rintro (hy | hy)
      · subst hy
        exact hmem
      · exact hy
  · simp only [hc]
    simp [List.mem_cons]

/-- Helper: adding a node makes its name a member of the depender keys and
keeps the others. -/
theorem addNode_depKeys_mem (name : String) (dm : DepMgr) (y : String) :
    y ∈ (addNode name dm).depKeys ↔ (y = name ∨ y ∈ dm.depKeys) := by
  unfold addNode
  by_cases hc : dm.depKeys.contains name = true
  · have hmem : name ∈ dm.depKeys := (strContains_iff_mem _ _).mp hc
    simp only [hc, if_true]
    constructor
    · exact Or.inr
    · rintro (hy | hy)
      · subst hy
        exact hmem
      · exact hy
  · simp only [hc]
    simp [List.mem_cons]

/-- Helper: registration makes exactly the node names known, in both key
lists. -/
theorem registerNodes_keys (nodes : List (String × NodeCfg)) (x : String) :
    (x ∈ (registerNodes nodes).wgKeys ↔ x ∈ nodes.map Prod.fst)
    ∧ (x ∈ (registerNodes nodes).depKeys ↔ x ∈ nodes.map Prod.fst) := by
  suffices h : ∀ (ns : List (String × NodeCfg)) (dm : DepMgr) (y : String),
      (y ∈ (ns.foldl (fun acc p => addNode p.1 acc) dm).wgKeys ↔
        (y ∈ ns.map Prod.fst ∨ y ∈ dm.wgKeys))
      ∧ (y ∈ (ns.foldl (fun acc p => addNode p.1 acc) dm).depKeys ↔
        (y ∈ ns.map Prod.fst ∨ y ∈ dm.depKeys)) by
    have h2 := h nodes newDependencyManager x
    simpa [newDependencyManager] using h2
  intro ns
  induction ns with
  | nil =>
    intro dm y
    simp
  | cons p t ih =>
    intro dm y
    have hstep := ih (addNode p.1 dm) y
    constructor
    · rw [List.foldl_cons, hstep.1, addNode_wgKeys_mem]
      simp only [List.map_cons, List.mem_cons]
      tauto
    · rw [List.foldl_cons, hstep.2, addNode_depKeys_mem]
      simp only [List.map_cons, List.mem_cons]
      tauto

/-- Helper: AddDependency succeeds when both names are registered, bumping
the depender counter and appending to the dependee list of the phase. -/
theorem addDependency_ok (depender : String) (wf : WaitFor) (dm : DepMgr)
    (h1 : dm.wgKeys.contains depender = true)
    (h2 : dm.depKeys.contains wf.node = true) :
    addDependency depender wf dm = .ok
      { dm with
        wg := fun x => if x = depender then dm.wg x + 1 else dm.wg x
        dependers := fun x =>
          if x = wf.node then (dm.dependers x).appendAt wf.phase depender
          else dm.dependers x } := by
  unfold addDependency
  rw [h1, h2]
  simp

/-- Helper: the inner loop of createStaticDynamicDependency for one
dynamic node adds one created-phase dependency on each static node. -/
theorem innerFold_spec :
    ∀ (statics : List (String × NodeCfg)) (d : String) (dm : DepMgr),
      dm.wgKeys.contains d = true →
      (∀ s ∈ statics, dm.depKeys.contains s.1 = true) →
      (statics.map Prod.fst).Nodup →
      ∃ dm2,
        statics.foldlM (fun acc2 s => addDependency d ⟨s.1, .created⟩ acc2) dm = .ok dm2
        ∧ dm2.wgKeys = dm.wgKeys
        ∧ dm2.depKeys = dm.depKeys
        ∧ (∀ x, dm2.wg x = if x = d then dm.wg x + statics.length else dm.wg x)
        ∧ (∀ x, dm2.dependers x =
            if x ∈ statics.map Prod.fst
            then (dm.dependers x).appendAt .created d
            else dm.dependers x) := by
  intro statics
  induction statics with
  | nil =>
    intro d dm hd hs hnd
    refine ⟨dm, rfl, rfl, rfl, ?_, ?_⟩
    · intro x
      by_cases hx : x = d <;> simp [hx]
    · intro x
      simp
  | cons s rest ih =>
    intro d dm hd hs hnd
    have hs1 : dm.depKeys.contains s.1 = true := hs s (List.mem_cons_self s rest)
    have hstep := addDependency_ok d ⟨s.1, .created⟩ dm hd hs1
    set dm1 : DepMgr :=
      { dm with
        wg := fun x => if x = d then dm.wg x + 1 else dm.wg x
        dependers := fun x =>
          if x = s.1 then (dm.dependers x).appendAt .created d
          else dm.dependers x } with hdm1
    have hd1 : dm1.wgKeys.contains d = true := hd
    have hs2 : ∀ q ∈ rest, dm1.depKeys.contains q.1 = true := by
      intro q hq
      exact hs q (List.mem_cons_of_mem s hq)
    have hnd1 : (rest.map Prod.fst).Nodup := (List.nodup_cons.mp (by simpa using hnd)).2
    have hsne : s.1 ∉ rest.map Prod.fst := (List.nodup_cons.mp (by simpa using hnd)).1
    rcases ih d dm1 hd1 hs2 hnd1 with ⟨dm2, hfold, hkw, hkd, hwg, hdep⟩
    refine ⟨dm2, ?_, ?_, ?_, ?_, ?_⟩
    · rw [List.foldlM_cons, hstep]
      simpa using hfold
    · rw [hkw]
    · rw [hkd]
    · intro x
      rw [hwg x]
      by_cases hx : x = d <;> simp [hx, Nat.add_assoc, Nat.add_comm 1 rest.length]
    · intro x
      rw [hdep x]
      have hdm1dep : dm1.dependers x =
          if x = s.1 then (dm.dependers x).appendAt .created d else dm.dependers x := rfl
      rw [hdm1dep]
      have hcons : (x ∈ (s :: rest).map Prod.fst) ↔ (x = s.1 ∨ x ∈ rest.map Prod.fst) := by
        simp
      by_cases hxr : x ∈ rest.map Prod.fst
      · have hxs : ¬ x = s.1 := fun hc => hsne (hc ▸ hxr)
        rw [if_pos hxr, if_neg hxs, if_pos (hcons.mpr (Or.inr hxr))]
      · by_cases hxs : x = s.1
        · rw [if_neg hxr, if_pos hxs, if_pos (hcons.mpr (Or.inl hxs))]
        · rw [if_neg hxr, if_neg hxs,
            if_neg (fun hc => (hcons.mp hc).elim hxs hxr)]

/-- Helper: the outer loop of createStaticDynamicDependency appends every
dynamic node name once to the created list of every static node and adds
one prerequisite per static node to every dynamic counter. -/
theorem outerFold_spec :
    ∀ (dyns statics : List (String × NodeCfg)) (dm : DepMgr),
      (∀ dd ∈ dyns, dm.wgKeys.contains dd.1 = true) →
      (∀ s ∈ statics, dm.depKeys.contains s.1 = true) →
      (statics.map Prod.fst).Nodup →
      (dyns.map Prod.fst).Nodup →
      ∃ dm2,
        dyns.foldlM
          (fun acc dd => statics.foldlM
            (fun acc2 s => addDependency dd.1 ⟨s.1, .created⟩ acc2) acc) dm = .ok dm2
        ∧ dm2.wgKeys = dm.wgKeys
        ∧ dm2.depKeys = dm.depKeys
        ∧ (∀ x, dm2.wg x = if x ∈ dyns.map Prod.fst
            then dm.wg x + statics.length else dm.wg x)
        ∧ (∀ x, dm2.dependers x =
            if x ∈ statics.map Prod.fst
            then { dm.dependers x with
                created := (dm.dependers x).created ++ dyns.map Prod.fst }
            else dm.dependers x) := by
  intro dyns
  induction dyns with
  | nil =>
    intro statics dm hdw hsd hnds hndd
    refine ⟨dm, rfl, rfl, rfl, ?_, ?_⟩
    · intro x
      simp
    · intro x
      by_cases hx : x ∈ statics.map Prod.fst <;> simp [hx]
  | cons dd rest ih =>
    intro statics dm hdw hsd hnds hndd
    have hd1 : dm.wgKeys.contains dd.1 = true := hdw dd (List.mem_cons_self dd rest)
    rcases innerFold_spec statics dd.1 dm hd1 hsd hnds
      with ⟨dm1, hinner, hkw1, hkd1, hwg1, hdep1⟩
    have hdw1 : ∀ q ∈ rest, dm1.wgKeys.contains q.1 = true := by
      intro q hq
      rw [hkw1]
      exact hdw q (List.mem_cons_of_mem dd hq)
    have hsd1 : ∀ s ∈ statics, dm1.depKeys.contains s.1 = true := by
      intro s hsmem
      rw [hkd1]
      exact hsd s hsmem
    have hndd1 : (rest.map Prod.fst).Nodup := (List.nodup_cons.mp (by simpa using hndd)).2
    have hddne : dd.1 ∉ rest.map Prod.fst := (List.nodup_cons.mp (by simpa using hndd)).1
    rcases ih statics dm1 hdw1 hsd1 hnds hndd1
      with ⟨dm2, hfold, hkw2, hkd2, hwg2, hdep2⟩
    have hconsmem : ∀ x : String,
        (x ∈ (dd :: rest).map Prod.fst) ↔ (x = dd.1 ∨ x ∈ rest.map Prod.fst) := by
      intro x
      simp
    refine ⟨dm2, ?_, ?_, ?_, ?_, ?_⟩
    · rw [List.foldlM_cons, hinner]
      simpa using hfold
    · rw [hkw2, hkw1]
    · rw [hkd2, hkd1]
    · intro x
      rw [hwg2 x, hwg1 x]
      by_cases hxr : x ∈ rest.map Prod.fst
      · have hxd : ¬ x = dd.1 := fun hc => hddne (hc ▸ hxr)
        rw [if_pos hxr, if_neg hxd, if_pos ((hconsmem x).mpr (Or.inr hxr))]
      · by_cases hxd : x = dd.1
        · rw [if_neg hxr, if_pos hxd, if_pos ((hconsmem x).mpr (Or.inl hxd))]
        · rw [if_neg hxr, if_neg hxd,
            if_neg (fun hc => ((hconsmem x).mp hc).elim hxd hxr)]
    · intro x
      rw [hdep2 x, hdep1 x]
      by_cases hxs : x ∈ statics.map Prod.fst
      · rw [if_pos hxs, if_pos hxs, if_pos hxs]
        have happ : ((dm.dependers x).appendAt .created dd.1).created
            = (dm.dependers x).created ++ [dd.1] := rfl
        have hcfg : ((dm.dependers x).appendAt .created dd.1).configured
            = (dm.dependers x).configured := rfl
        have hhl : ((dm.dependers x).appendAt .created dd.1).healthy
            = (dm.dependers x).healthy := rfl
        cases hpd : (dm.dependers x)
        simp [PhaseDependers.appendAt, List.append_assoc]
      · rw [if_neg hxs, if_neg hxs, if_neg hxs]

/-- C8: on a freshly registered manager, the static-before-dynamic
derivation succeeds and adds, for every dynamic-IP node, exactly one
created-phase dependency on every static-IP node and nothing else: each
static node's created list is exactly the dynamic names (each once), all
other depender lists stay empty, and each dynamic node's outstanding
counter equals the number of static nodes, so it can only unblock after
every static node signalled created. -/
theorem createStaticDynamicDependency_exact :
    ∀ nodes : List (String × NodeCfg), (nodes.map Prod.fst).Nodup →
      staticDynResult nodes = .ok (staticDynDM nodes)
      ∧ (∀ s ∈ staticIPNames nodes,
          ((staticDynDM nodes).dependers s).created = dynIPNames nodes)
      ∧ (∀ x, x ∉ staticIPNames nodes →
          (staticDynDM nodes).dependers x = emptyPhaseDependers)
      ∧ (∀ x, ((staticDynDM nodes).dependers x).configured = []
          ∧ ((staticDynDM nodes).dependers x).healthy = [])
      ∧ (∀ x, (staticDynDM nodes).wg x =
          if x ∈ dynIPNames nodes then (staticIPNames nodes).length else 0)
      ∧ (∀ s ∈ staticIPNames nodes, ∀ d ∈ dynIPNames nodes,
          (((staticDynDM nodes).dependers s).created).count d = 1) := by
  intro nodes hnd
  have hstnames : staticIPNames nodes
      = (nodes.filter (fun p => p.2.hasStaticMgmtIP)).map Prod.fst := rfl
  have hdynames : dynIPNames nodes
      = (nodes.filter (fun p => !p.2.hasStaticMgmtIP)).map Prod.fst := rfl
  have hndst : ((nodes.filter (fun p => p.2.hasStaticMgmtIP)).map Prod.fst).Nodup :=
    hnd.sublist ((List.filter_sublist _).map _)
  have hnddy : ((nodes.filter (fun p => !p.2.hasStaticMgmtIP)).map Prod.fst).Nodup :=
    hnd.sublist ((List.filter_sublist _).map _)
  have hdw : ∀ dd ∈ nodes.filter (fun p => !p.2.hasStaticMgmtIP),
      (registerNodes nodes).wgKeys.contains dd.1 = true := by
    intro dd hdd
    rw [strContains_iff_mem, (registerNodes_keys nodes dd.1).1]
    exact List.mem_map_of_mem Prod.fst (List.mem_of_mem_filter hdd)
  have hsd : ∀ s ∈ nodes.filter (fun p => p.2.hasStaticMgmtIP),
      (registerNodes nodes).depKeys.contains s.1 = true := by
    intro s hsmem
    rw [strContains_iff_mem, (registerNodes_keys nodes s.1).2]
    exact List.mem_map_of_mem Prod.fst (List.mem_of_mem_filter hsmem)
  rcases outerFold_spec (nodes.filter (fun p => !p.2.hasStaticMgmtIP))
    (nodes.filter (fun p => p.2.hasStaticMgmtIP)) (registerNodes nodes)
    hdw hsd hndst hnddy with ⟨dm2, hfold, hkw, hkd, hwg, hdep⟩
  have hres : staticDynResult nodes = .ok dm2 := by
    unfold staticDynResult createStaticDynamicDependency
    dsimp only
    exact hfold
  have hdm : staticDynDM nodes = dm2 := by
    unfold staticDynDM
    rw [hres]
    rfl
  have hcreated : ∀ s ∈ staticIPNames nodes,
      ((staticDynDM nodes).dependers s).created = dynIPNames nodes := by
    intro s hsmem
    rw [hdm, hdep s, hstnames] at *
    rw [if_pos hsmem, registerNodes_dependers nodes s]
    rw [hdynames]
    rfl
  refine ⟨by rw [hres, hdm], hcreated, ?_, ?_, ?_, ?_⟩
  · intro x hx
    rw [hdm, hdep x, if_neg (by rw [hstnames] at hx; exact hx),
      registerNodes_dependers nodes x]
  · intro x
    rw [hdm, hdep x]
    by_cases hx : x ∈ (nodes.filter (fun p => p.2.hasStaticMgmtIP)).map Prod.fst
    · rw [if_pos hx, registerNodes_dependers nodes x]
      exact ⟨rfl, rfl⟩
    · rw [if_neg hx, registerNodes_dependers nodes x]
      exact ⟨rfl, rfl⟩
  · intro x
    rw [hdm, hwg x, registerNodes_wg nodes x, hdynames, hstnames, List.length_map]
    simp
  · intro s hsmem d hdmem
    rw [hcreated s hsmem]
    exact List.count_eq_one_of_mem (by rw [hdynames]; exact hnddy) hdmem

/-- Witness for createStaticDynamicDependency_exact on the spec scenario
S3: one static node s and two dynamic nodes d1, d2. -/
theorem createStaticDynamicDependency_exact_witness :
    ((staticDynDM [("s", ⟨"172.20.20.2/24", ""⟩), ("d1", ⟨"", ""⟩),
        ("d2", ⟨"", ""⟩)]).dependers "s").created
      = dynIPNames [("s", ⟨"172.20.20.2/24", ""⟩), ("d1", ⟨"", ""⟩), ("d2", ⟨"", ""⟩)]
    ∧ (((staticDynDM [("s", ⟨"172.20.20.2/24", ""⟩), ("d1", ⟨"", ""⟩),
        ("d2", ⟨"", ""⟩)]).dependers "s").created).count "d1" = 1 :=
  ⟨(createStaticDynamicDependency_exact
      [("s", ⟨"172.20.20.2/24", ""⟩), ("d1", ⟨"", ""⟩), ("d2", ⟨"", ""⟩)]
      (by decide)).2.1 "s" (by decide),
   (createStaticDynamicDependency_exact
      [("s", ⟨"172.20.20.2/24", ""⟩), ("d1", ⟨"", ""⟩), ("d2", ⟨"", ""⟩)]
      (by decide)).2.2.2.2.2 "s" (by decide) "d1" (by decide)⟩

/-- Witness for waitForNodeDependencies_phase_insensitive at the healthy
dependency manager. -/
theorem waitForNodeDependencies_phase_insensitive_witness :
    waitForNodeDependencies dmHealthyDep "a" .created
      = waitForNodeDependencies dmHealthyDep "a" .healthy
    ∧ (waitForNodeDependencies dmHealthyDep "a" .created = .ok true ↔
        dmHealthyDep.wgKeys.contains "a" = true ∧ dmHealthyDep.wg "a" = 0) :=
  waitForNodeDependencies_phase_insensitive dmHealthyDep "a" .created .healthy

/-- Witness for getContainerHealth_behaviour: the lowercase healthy status
is not Healthy for docker but is healthy for podman. -/
theorem getContainerHealth_behaviour_witness :
    dockerGetContainerHealth (.ok ⟨⟨some ⟨"healthy"⟩⟩⟩) = .ok ("healthy" == "Healthy")
    ∧ podmanGetContainerHealth (.ok ()) (.ok ⟨⟨⟨"healthy"⟩⟩⟩)
      = .ok ("healthy" == "healthy") :=
  ⟨getContainerHealth_behaviour.1 "healthy", getContainerHealth_behaviour.2.1 "healthy"⟩
